import Mathlib

/-!
Shallow embedding of the compliance-check core of the
`supabase_compliance_tool` repository: the three check evaluators
(`checkMFA`, `checkRLS`, `checkPITR` from `frontend/src/lib/checks.ts`),
the run controller (`handleRunChecks` from the ComplianceChecker
component), the evidence log, and the JSON/CSV evidence exports
(`downloadAsJson` / `downloadAsCsv` from the EvidenceLog component).

Remote calls are modelled by passing the outcome of each call
(`Except` for a promise that may reject, `Option` fields for the
supabase rpc result shape) into the evaluator; `checkPITR` additionally
returns the list of management-API endpoints it invoked, so that
"the second call is never made" is expressible.
-/

namespace SupabaseCompliance

/-- The four result statuses of `CheckResult.status` in `checks.ts`. -/
inductive Status where
  | pass
  | fail
  | pending
  | error
deriving DecidableEq, Repr

/-- The `JSONValue` type of `checks.ts` (JS JSON values). -/
inductive JSONValue where
  | str : String → JSONValue
  | num : Int → JSONValue
  | bool : Bool → JSONValue
  | null : JSONValue
  | obj : List (String × JSONValue) → JSONValue
  | arr : List JSONValue → JSONValue

/-- `CheckResult` from `checks.ts`. -/
structure CheckResult where
  status : Status
  details : JSONValue
  message : String

/-- A JavaScript `Error` value, as far as the code reads it
(`message`, `name`, `stack`). -/
structure JsError where
  message : String
  name : String
  stack : Option String

/-- `safeJsonValue` from `checks.ts`, restricted to the `Error` case
(`error.stack || ''` becomes `getD ""`). -/
def safeJsonValue (e : JsError) : JSONValue :=
  .obj [("message", .str e.message), ("name", .str e.name),
        ("stack", .str (e.stack.getD ""))]

/-! ## MFA evaluator -/

/-- An enrolled MFA factor of a user record (the code only ever reads
the length of the factor list). -/
structure Factor where
  id : String

/-- A user record as read by `checkMFA`: `email` and the optional
`factors` array. -/
structure AdminUser where
  email : Option String
  factors : Option (List Factor)

/-- `Boolean(user.factors?.length)`: true iff the factor list is
present and non-empty. -/
def mfaEnabled (u : AdminUser) : Bool :=
  match u.factors with
  | some fs => decide (fs.length ≠ 0)
  | none => false

/-- JS rendering of the per-user `{email, mfaEnabled}` projection used
as `details` (a missing email becomes `null`). -/
def userStatusJson (p : Option String × Bool) : JSONValue :=
  .obj [("email", match p.1 with | some s => .str s | none => .null),
        ("mfaEnabled", .bool p.2)]

/-- `checkMFA` from `checks.ts`. The argument is the outcome of
`supabase.auth.admin.listUsers()`: either an error (thrown and caught)
or the user list. -/
def checkMFA (listed : Except JsError (List AdminUser)) : CheckResult :=
  match listed with
  | .error e =>
    { status := .error
      message := "Failed to check MFA status: " ++ e.message
      details := safeJsonValue e }
  | .ok users =>
    let userMFAStatus := users.map (fun u => (u.email, mfaEnabled u))
    let allEnabled := userMFAStatus.all (fun p => p.2)
    let enabledCount := (userMFAStatus.filter (fun p => p.2)).length
    { status := if allEnabled then .pass else .fail
      details := .arr (userMFAStatus.map userStatusJson)
      message :=
        if allEnabled then
          "MFA is enabled for all " ++ toString userMFAStatus.length ++ " users"
        else
          "MFA is enabled for " ++ toString enabledCount ++ " out of "
            ++ toString userMFAStatus.length ++ " users" }

/-! ## RLS evaluator -/

/-- A row of the `get_tables_info` introspection RPC
(`TableInfo` in `checks.ts`). -/
structure TableEntry where
  table_name : String
  rls_enabled : Bool
  schema : String

/-- The `{data, error}` shape returned by `supabase.rpc`. -/
structure RpcOutcome where
  data : Option (List TableEntry)
  error : Option JsError

/-- JS rendering of a table row, used in `details`. -/
def tableEntryJson (t : TableEntry) : JSONValue :=
  .obj [("table_name", .str t.table_name), ("rls_enabled", .bool t.rls_enabled),
        ("schema", .str t.schema)]

/-- `checkRLS` from `checks.ts`. The argument is the `{data, error}`
outcome of `supabase.rpc('get_tables_info')`; `if (error || !data)`
is the first branch. -/
def checkRLS (r : RpcOutcome) : CheckResult :=
  match r.error, r.data with
  | none, some tableData =>
    let allEnabled := tableData.all (fun t => t.rls_enabled)
    let enabledCount := (tableData.filter (fun t => t.rls_enabled)).length
    { status := if allEnabled then .pass else .fail
      details := .arr (tableData.map tableEntryJson)
      message :=
        if allEnabled then
          "RLS is enabled on all " ++ toString tableData.length ++ " tables"
        else
          "RLS is enabled on " ++ toString enabledCount ++ " out of "
            ++ toString tableData.length ++ " tables" }
  | _, _ =>
    { status := .pass
      message := "No public tables found or RLS configuration not needed yet."
      details := .arr [] }

/-! ## PITR evaluator -/

/-- `SupabaseCredentials` from `lib/supabase.ts`. -/
structure SupabaseCredentials where
  url : String
  serviceRoleKey : String
  managementApiKey : String
  projectRef : Option String

/-- One step of matching the regex `https:\/\/([^.]+)\.supabase\.co`
at the head of the character list: the literal `https://`, then one or
more non-dot characters (the capture), then the literal
`.supabase.co`. -/
def matchRefAt (cs : List Char) : Option (List Char) :=
  let scheme := ['h', 't', 't', 'p', 's', ':', '/', '/']
  let suffix := ['.', 's', 'u', 'p', 'a', 'b', 'a', 's', 'e', '.', 'c', 'o']
  if scheme.isPrefixOf cs then
    let rest := cs.drop scheme.length
    let label := rest.takeWhile (fun c => c ≠ '.')
    if label.length ≠ 0 ∧ suffix.isPrefixOf (rest.drop label.length) then
      some label
    else
      none
  else
    none

/-- Leftmost match of the (unanchored) regex: try every start
position. -/
def findRef : List Char → Option (List Char)
  | [] => none
  | c :: cs =>
    match matchRefAt (c :: cs) with
    | some label => some label
    | none => findRef cs

/-- `extractProjectRef` from `checks.ts`:
`url.match(/https:\/\/([^.]+)\.supabase\.co/)` and the first capture
group, or `null`. -/
def extractProjectRef (url : String) : Option String :=
  (findRef url.data).map (fun l => String.mk l)

/-- `String.prototype.toLowerCase` as the code applies it to the tier
string (character-wise lowercasing). -/
def jsToLower (s : String) : String :=
  String.mk (s.data.map Char.toLower)

/-- Look a key up in a JSON value, as JS property access does on the
parsed response (`none` for a missing key or a non-object). -/
def getField : JSONValue → String → Option JSONValue
  | .obj fields, k => (fields.find? (fun p => p.1 == k)).map (fun p => p.2)
  | _, _ => none

/-- JS truthiness of a JSON value (used by
`backupInfo.pitr_enabled ? … : …`). -/
def truthy : JSONValue → Bool
  | .null => false
  | .bool b => b
  | .num n => decide (n ≠ 0)
  | .str s => decide (s.length ≠ 0)
  | .obj _ => true
  | .arr _ => true

/-- The fields of a JSON object (`[]` for anything else), for the JS
spread `{...backupInfo, …}`. -/
def objFields : JSONValue → List (String × JSONValue)
  | .obj fs => fs
  | _ => []

/-- The fixed free-tier result returned both when the subscription
call fails and when the tier is `free`. -/
def freeTierResult : CheckResult :=
  { status := .fail
    message := "Point in Time Recovery (PITR) is not available on the free tier. Upgrade to Pro plan or higher to enable this feature."
    details := .obj [("currentTier", .str "free"),
                     ("recommendation", .str "Upgrade to Pro plan or higher"),
                     ("learnMore", .str "https://supabase.com/pricing")] }

/-- Outcomes of the two management-API calls `checkPITR` can make:
each either rejects (non-2xx or transport fault, `callManagementApi`
throws) or resolves to parsed JSON. -/
structure PitrEnv where
  subscriptionResp : Except JsError JSONValue
  backupResp : Except JsError JSONValue

/-- `checkPITR` from `checks.ts`, instrumented with the list of
management-API endpoints invoked, in order. A subscription response
whose `tier` field is absent or not a string makes
`subscription.tier.toLowerCase()` throw; the outermost `catch` turns
that into the generic `error` result. -/
def checkPITR (credentials : SupabaseCredentials) (env : PitrEnv) :
    CheckResult × List String :=
  match extractProjectRef credentials.url with
  | none =>
    ({ status := .error
       message := "Invalid Supabase URL. Unable to extract project reference."
       details := .obj [("url", .str credentials.url)] }, [])
  | some projectRef =>
    let subCall := "projects/" ++ projectRef ++ "/subscription"
    match env.subscriptionResp with
    | .error _ => (freeTierResult, [subCall])
    | .ok subscription =>
      match getField subscription "tier" with
      | some (.str tier) =>
        if jsToLower tier == "free" then
          (freeTierResult, [subCall])
        else
          let backupCall := "projects/" ++ projectRef ++ "/database/backups/info"
          match env.backupResp with
          | .error e =>
            ({ status := .fail
               message := "Point in Time Recovery is available but not configured. You can enable it in your project settings."
               details := .obj [("tier", .str tier),
                                ("recommendation", .str "Configure PITR in project settings"),
                                ("error", .str e.message)] },
             [subCall, backupCall])
          | .ok backupInfo =>
            let pitrOn := truthy ((getField backupInfo "pitr_enabled").getD .null)
            ({ status := if pitrOn then .pass else .fail
               message :=
                 if pitrOn then "Point in Time Recovery is enabled"
                 else "Point in Time Recovery is available but not enabled. You can enable it in your project settings."
               details := .obj (objFields backupInfo
                 ++ [("tier", .str tier),
                     ("configuration", .str (if pitrOn then "enabled" else "disabled"))]) },
             [subCall, backupCall])
      | _ =>
        ({ status := .error
           message := "Failed to check PITR status. Please verify your credentials and try again."
           details := safeJsonValue
             { message := "subscription.tier.toLowerCase is not a function"
               name := "TypeError"
               stack := none } }, [subCall])

/-! ## Run controller and evidence log -/

/-- What the per-check `.catch` handler in `handleRunChecks` reads off
a rejection value: `e.message` and `e.details`. -/
structure RejectedError where
  message : String
  details : JSONValue

/-- The `Results` record of the ComplianceChecker component. -/
structure Results where
  mfa : CheckResult
  rls : CheckResult
  pitr : CheckResult

/-- The defensive `.catch(e => ({status:'error', …}))` wrapper that
`handleRunChecks` puts around each evaluator promise. -/
def wrapCheck (checkName : String) (outcome : Except RejectedError CheckResult) :
    CheckResult :=
  match outcome with
  | .ok r => r
  | .error e =>
    { status := .error
      message := checkName ++ " Check Error: " ++ e.message
      details := e.details }

/-- The fan-out-and-merge of `handleRunChecks`: each evaluator promise
outcome is wrapped independently and the three results are merged into
a fresh `Results` record. -/
def runChecks (mfaOutcome rlsOutcome pitrOutcome : Except RejectedError CheckResult) :
    Results :=
  { mfa := wrapCheck "MFA" mfaOutcome
    rls := wrapCheck "RLS" rlsOutcome
    pitr := wrapCheck "PITR" pitrOutcome }

/-- `EvidenceEntry` from the ComplianceChecker / EvidenceLog
components: four string fields. -/
structure EvidenceEntry where
  timestamp : String
  check : String
  status : String
  details : String

/-- The string a `Status` renders to (the JS union is of these string
literals). -/
def statusText : Status → String
  | .pass => "pass"
  | .fail => "fail"
  | .pending => "pending"
  | .error => "error"

/-- The three evidence entries `handleRunChecks` builds from one run:
one shared timestamp, fixed order MFA, RLS, PITR, `details` taken from
each result's `message`. -/
def evidenceOfRun (timestamp : String) (results : Results) : List EvidenceEntry :=
  [ { timestamp := timestamp, check := "MFA"
      status := statusText results.mfa.status, details := results.mfa.message },
    { timestamp := timestamp, check := "RLS"
      status := statusText results.rls.status, details := results.rls.message },
    { timestamp := timestamp, check := "PITR"
      status := statusText results.pitr.status, details := results.pitr.message } ]

/-- `setEvidence(prev => [...prev, …])`: the run's three entries are
appended to the existing log. -/
def appendEvidence (prev : List EvidenceEntry) (timestamp : String)
    (results : Results) : List EvidenceEntry :=
  prev ++ evidenceOfRun timestamp results

/-! ## Evidence export: JSON (`downloadAsJson`)

`downloadAsJson` serializes the log with `JSON.stringify(evidence, null, 2)`.
The renderer below reproduces that serialization exactly (two-space
indentation, keys in insertion order `timestamp, check, status, details`,
JSON string escaping as `stringify` performs it); the parser is a
whitespace-skipping JSON reader for arrays of four-string-field objects,
with full string-literal unescaping, so that re-importing the export can
be stated. -/

/-- Lowercase hex digit, as `JSON.stringify` emits in `\u00XX` escapes. -/
def hexDigitChar (n : Nat) : Char :=
  if n < 10 then Char.ofNat (48 + n) else Char.ofNat (87 + n)

/-- The escape `JSON.stringify` applies to one character of a string:
quote and backslash escaped, the five short control escapes, `\u00XX`
for the remaining control characters, everything else literal. -/
def escapeJsonChar (c : Char) : List Char :=
  if c = '"' then ['\\', '"']
  else if c = '\\' then ['\\', '\\']
  else if c = '\x08' then ['\\', 'b']
  else if c = '\x0c' then ['\\', 'f']
  else if c = '\n' then ['\\', 'n']
  else if c = '\x0d' then ['\\', 'r']
  else if c = '\t' then ['\\', 't']
  else if c.toNat < 32 then
    ['\\', 'u', '0', '0', hexDigitChar (c.toNat / 16), hexDigitChar (c.toNat % 16)]
  else [c]

/-- `JSON.stringify` escaping of a whole string body. -/
def escJson : List Char → List Char
  | [] => []
  | c :: cs => escapeJsonChar c ++ escJson cs

/-- A JSON string literal: quote, escaped body, quote. -/
def jsonStrLit (s : String) : List Char :=
  '"' :: (escJson s.data ++ ['"'])

/-- The characters of the four object keys as serialized. -/
def kTimestamp : List Char := ['"', 't', 'i', 'm', 'e', 's', 't', 'a', 'm', 'p', '"']

def kCheck : List Char := ['"', 'c', 'h', 'e', 'c', 'k', '"']

def kStatus : List Char := ['"', 's', 't', 'a', 't', 'u', 's', '"']

def kDetails : List Char := ['"', 'd', 'e', 't', 'a', 'i', 'l', 's', '"']

/-- Newline plus the four-space member indentation of
`JSON.stringify(_, null, 2)` at object depth inside the array. -/
def ind4 : List Char := ['\n', ' ', ' ', ' ', ' ']

/-- The member list of one serialized entry object (everything between
the braces, plus the closing brace at its two-space indent). -/
def entryBodyChars (e : EvidenceEntry) : List Char :=
  ind4 ++ kTimestamp ++ ':' :: ' ' :: jsonStrLit e.timestamp
    ++ ',' :: (ind4 ++ kCheck ++ ':' :: ' ' :: jsonStrLit e.check)
    ++ ',' :: (ind4 ++ kStatus ++ ':' :: ' ' :: jsonStrLit e.status)
    ++ ',' :: (ind4 ++ kDetails ++ ':' :: ' ' :: jsonStrLit e.details)
    ++ '\n' :: ' ' :: ' ' :: '}' :: []

/-- One array element (an evidence-entry object) exactly as
`JSON.stringify(evidence, null, 2)` lays it out. -/
def renderEntryChars (e : EvidenceEntry) : List Char :=
  '{' :: entryBodyChars e

/-- The remaining array elements, each preceded by `,\n  `. -/
def renderEntriesTail : List EvidenceEntry → List Char
  | [] => []
  | e :: es => ',' :: '\n' :: ' ' :: ' ' :: (renderEntryChars e ++ renderEntriesTail es)

/-- The characters of `JSON.stringify(evidence, null, 2)`. -/
def exportJsonChars : List EvidenceEntry → List Char
  | [] => ['[', ']']
  | e :: es =>
    '[' :: '\n' :: ' ' :: ' ' :: (renderEntryChars e ++ renderEntriesTail es
      ++ '\n' :: ']' :: [])

/-- The JSON export produced by `downloadAsJson`
(`JSON.stringify(evidence, null, 2)`). -/
def exportJson (es : List EvidenceEntry) : String :=
  String.mk (exportJsonChars es)

/-- JSON insignificant whitespace. -/
def isJsonWs (c : Char) : Bool :=
  c == ' ' || c == '\n' || c == '\t' || c == '\x0d'

/-- Skip insignificant whitespace. -/
def skipWs (cs : List Char) : List Char :=
  cs.dropWhile isJsonWs

/-- Value of one hex digit, as `JSON.parse` reads `\uXXXX`. -/
def hexVal? (c : Char) : Option Nat :=
  if 48 ≤ c.toNat ∧ c.toNat ≤ 57 then some (c.toNat - 48)
  else if 97 ≤ c.toNat ∧ c.toNat ≤ 102 then some (c.toNat - 87)
  else if 65 ≤ c.toNat ∧ c.toNat ≤ 70 then some (c.toNat - 55)
  else none

/-- Parse the body of a JSON string literal (after the opening quote):
returns the unescaped characters and the input following the closing
quote. Handles all JSON escapes (surrogate-pair combination aside,
which the serializer never emits). -/
def parseJsonStrChars : List Char → Option (List Char × List Char)
  | [] => none
  | c :: rest =>
    if c = '"' then some ([], rest)
    else if c = '\\' then
      match rest with
      | [] => none
      | e :: r =>
        if e = '"' then (parseJsonStrChars r).map (fun p => ('"' :: p.1, p.2))
        else if e = '\\' then (parseJsonStrChars r).map (fun p => ('\\' :: p.1, p.2))
        else if e = '/' then (parseJsonStrChars r).map (fun p => ('/' :: p.1, p.2))
        else if e = 'b' then (parseJsonStrChars r).map (fun p => ('\x08' :: p.1, p.2))
        else if e = 'f' then (parseJsonStrChars r).map (fun p => ('\x0c' :: p.1, p.2))
        else if e = 'n' then (parseJsonStrChars r).map (fun p => ('\n' :: p.1, p.2))
        else if e = 'r' then (parseJsonStrChars r).map (fun p => ('\x0d' :: p.1, p.2))
        else if e = 't' then (parseJsonStrChars r).map (fun p => ('\t' :: p.1, p.2))
        else if e = 'u' then
          match r with
          | h1 :: h2 :: h3 :: h4 :: r2 =>
            match hexVal? h1, hexVal? h2, hexVal? h3, hexVal? h4 with
            | some a, some b, some c2, some d =>
              (parseJsonStrChars r2).map
                (fun p => (Char.ofNat (((a * 16 + b) * 16 + c2) * 16 + d) :: p.1, p.2))
            | _, _, _, _ => none
          | _ => none
        else none
    else (parseJsonStrChars rest).map (fun p => (c :: p.1, p.2))

/-- Match an exact literal token at the head of the input. -/
def expectLit : List Char → List Char → Option (List Char)
  | [], cs => some cs
  | t :: ts, c :: cs => if c = t then expectLit ts cs else none
  | _ :: _, [] => none

/-- Match a token after skipping whitespace. -/
def expectTok (tok : List Char) (cs : List Char) : Option (List Char) :=
  expectLit tok (skipWs cs)

/-- Parse a JSON string token (whitespace, quote, body). -/
def parseStringToken (cs : List Char) : Option (String × List Char) :=
  match skipWs cs with
  | c :: rest =>
    if c = '"' then (parseJsonStrChars rest).map (fun p => (String.mk p.1, p.2))
    else none
  | [] => none

/-- Parse one `"key": "value"` member: the literal key token, the
colon, the string value. -/
def parseKV (key : List Char) (cs : List Char) : Option (String × List Char) :=
  (expectTok key cs).bind fun r1 =>
  (expectTok [':'] r1).bind fun r2 =>
  parseStringToken r2

/-- Parse one evidence-entry object: the four string fields in the
serialized key order. -/
def parseEntryChars (cs : List Char) : Option (EvidenceEntry × List Char) :=
  (expectTok ['{'] cs).bind fun r0 =>
  (parseKV kTimestamp r0).bind fun p1 =>
  (expectTok [','] p1.2).bind fun r1 =>
  (parseKV kCheck r1).bind fun p2 =>
  (expectTok [','] p2.2).bind fun r2 =>
  (parseKV kStatus r2).bind fun p3 =>
  (expectTok [','] p3.2).bind fun r3 =>
  (parseKV kDetails r3).bind fun p4 =>
  (expectTok ['}'] p4.2).map fun r4 =>
  ({ timestamp := p1.1, check := p2.1, status := p3.1, details := p4.1 }, r4)

/-- Parse the rest of the array after the first element: either `]`,
or `,` followed by another element. Fuel bounds the number of
elements (one is consumed per element, so input length suffices). -/
def parseEntriesTail : Nat → List Char → Option (List EvidenceEntry × List Char)
  | 0, _ => none
  | fuel + 1, cs =>
    match skipWs cs with
    | c :: rest =>
      if c = ']' then some ([], rest)
      else if c = ',' then
        (parseEntryChars rest).bind fun p =>
          (parseEntriesTail fuel p.2).map fun q => (p.1 :: q.1, q.2)
      else none
    | [] => none

/-- Parse a JSON export back into evidence entries: a whole input that
is an array of entry objects. -/
def parseEvidenceJson (s : String) : Option (List EvidenceEntry) :=
  match skipWs s.data with
  | c :: rest =>
    if c = '[' then
      match skipWs rest with
      | c2 :: rest2 =>
        if c2 = ']' then if skipWs rest2 = [] then some [] else none
        else
          (parseEntryChars rest).bind fun p =>
            (parseEntriesTail (s.data.length + 1) p.2).bind fun q =>
              if skipWs q.2 = [] then some (p.1 :: q.1) else none
      | [] => none
    else none
  | [] => none

/-! ## Evidence export: CSV (`downloadAsCsv`)

`downloadAsCsv` emits the header `Timestamp,Check,Status,Details` and
one line per entry, every cell wrapped in double quotes with embedded
quotes doubled, lines joined by `\n`. The parser below is an RFC-4180
style reader (quoted fields with doubled quotes, unquoted fields up to
the next separator). -/

/-- Double every quote of a cell body
(`String(cell).replace(/"/g, '""')`). -/
def dupQuotes : List Char → List Char
  | [] => []
  | c :: cs => if c = '"' then '"' :: '"' :: dupQuotes cs else c :: dupQuotes cs

/-- One CSV cell as the code emits it: always quoted, quotes
doubled. -/
def csvCell (s : String) : List Char :=
  '"' :: (dupQuotes s.data ++ ['"'])

/-- One evidence row in the column order Timestamp, Check, Status,
Details. -/
def renderCsvRow (e : EvidenceEntry) : List Char :=
  csvCell e.timestamp ++ ',' :: (csvCell e.check ++ ',' :: (csvCell e.status
    ++ ',' :: csvCell e.details))

/-- The header line `Timestamp,Check,Status,Details`. -/
def csvHeaderChars : List Char :=
  ['T', 'i', 'm', 'e', 's', 't', 'a', 'm', 'p', ',', 'C', 'h', 'e', 'c', 'k', ',',
   'S', 't', 'a', 't', 'u', 's', ',', 'D', 'e', 't', 'a', 'i', 'l', 's']

/-- The rows, each preceded by the `\n` that `join('\n')` inserts. -/
def csvRowsChars : List EvidenceEntry → List Char
  | [] => []
  | e :: es => '\n' :: (renderCsvRow e ++ csvRowsChars es)

/-- The characters of the CSV export of `downloadAsCsv`. -/
def exportCsvChars (es : List EvidenceEntry) : List Char :=
  csvHeaderChars ++ csvRowsChars es

/-- The CSV export as a string. -/
def exportCsv (es : List EvidenceEntry) : String :=
  String.mk (exportCsvChars es)

/-- RFC-4180 quoted-field body (after the opening quote): a doubled
quote is a literal quote, a lone quote closes the field. -/
def parseQuotedCsv : List Char → Option (List Char × List Char)
  | [] => none
  | c :: rest =>
    if c = '"' then
      match rest with
      | [] => some ([], [])
      | c2 :: r2 =>
        if c2 = '"' then (parseQuotedCsv r2).map (fun p => ('"' :: p.1, p.2))
        else some ([], c2 :: r2)
    else (parseQuotedCsv rest).map (fun p => (c :: p.1, p.2))

/-- One CSV field: quoted if it starts with a quote, otherwise the run
of characters up to the next `,` or newline. -/
def parseCsvField : List Char → Option (String × List Char)
  | [] => some ("", [])
  | c :: cs =>
    if c = '"' then (parseQuotedCsv cs).map (fun p => (String.mk p.1, p.2))
    else
      let f := (c :: cs).takeWhile (fun x => !(x == ',' || x == '\n'))
      some (String.mk f, (c :: cs).drop f.length)

/-- One CSV record: comma-separated fields, ended by a newline or the
end of input. Fuel bounds the number of fields. -/
def parseCsvRecord : Nat → List Char → Option (List String × List Char)
  | 0, _ => none
  | fuel + 1, cs =>
    (parseCsvField cs).bind fun p =>
      match p.2 with
      | [] => some ([p.1], [])
      | c :: r =>
        if c = ',' then (parseCsvRecord fuel r).map (fun q => (p.1 :: q.1, q.2))
        else some ([p.1], c :: r)

/-- Newline-separated CSV records. Fuel bounds the number of records;
each record may use the full remaining fuel for its fields. -/
def parseCsvRecords : Nat → List Char → Option (List (List String))
  | 0, _ => none
  | fuel + 1, cs =>
    (parseCsvRecord (fuel + 1) cs).bind fun p =>
      match p.2 with
      | [] => some [p.1]
      | c :: r =>
        if c = '\n' then (parseCsvRecords fuel r).map (fun rs => p.1 :: rs)
        else none

/-- Parse a CSV file into its records (fields plus four spare units of
fuel cover any input, since each field past the first consumes a
separator character and each record a newline). -/
def parseCsv (s : String) : Option (List (List String)) :=
  parseCsvRecords (s.data.length + 4) s.data

/-! ## Helper lemmas -/

lemma all_snd_map_mfa (users : List AdminUser) :
    (users.map (fun u => (u.email, mfaEnabled u))).all (fun p => p.2)
      = users.all mfaEnabled := by
  induction users with
  | nil => rfl
  | cons u us ih => simp [List.all, ih]

lemma filter_snd_map_mfa (users : List AdminUser) :
    ((users.map (fun u => (u.email, mfaEnabled u))).filter (fun p => p.2)).length
      = (users.filter mfaEnabled).length := by
  induction users with
  | nil => rfl
  | cons u us ih =>
    by_cases h : mfaEnabled u <;> simp [List.filter, h, ih]

lemma mk_data (s : String) : String.mk s.data = s := rfl

lemma data_mk (cs : List Char) : (String.mk cs).data = cs := rfl

lemma expectLit_append (tok rest : List Char) : expectLit tok (tok ++ rest) = some rest := by
  induction tok with
  | nil => rfl
  | cons t ts ih => simp [expectLit, ih]

lemma hexVal_hexDigitChar (n : Nat) (h : n < 16) : hexVal? (hexDigitChar n) = some n := by
  interval_cases n <;> rfl

lemma pjs_quote (rest : List Char) : parseJsonStrChars ('"' :: rest) = some ([], rest) := by
  rw [parseJsonStrChars.eq_def]; simp

lemma pjs_esc_quote (r : List Char) :
    parseJsonStrChars ('\\' :: '"' :: r) =
      (parseJsonStrChars r).map (fun p => ('"' :: p.1, p.2)) := by
  rw [parseJsonStrChars.eq_def]; simp

lemma pjs_esc_backslash (r : List Char) :
    parseJsonStrChars ('\\' :: '\\' :: r) =
      (parseJsonStrChars r).map (fun p => ('\\' :: p.1, p.2)) := by
  rw [parseJsonStrChars.eq_def]; simp

lemma pjs_esc_b (r : List Char) :
    parseJsonStrChars ('\\' :: 'b' :: r) =
      (parseJsonStrChars r).map (fun p => ('\x08' :: p.1, p.2)) := by
  rw [parseJsonStrChars.eq_def]; simp

lemma pjs_esc_f (r : List Char) :
    parseJsonStrChars ('\\' :: 'f' :: r) =
      (parseJsonStrChars r).map (fun p => ('\x0c' :: p.1, p.2)) := by
  rw [parseJsonStrChars.eq_def]; simp

lemma pjs_esc_n (r : List Char) :
    parseJsonStrChars ('\\' :: 'n' :: r) =
      (parseJsonStrChars r).map (fun p => ('\n' :: p.1, p.2)) := by
  rw [parseJsonStrChars.eq_def]; simp

lemma pjs_esc_r (r : List Char) :
    parseJsonStrChars ('\\' :: 'r' :: r) =
      (parseJsonStrChars r).map (fun p => ('\x0d' :: p.1, p.2)) := by
  rw [parseJsonStrChars.eq_def]; simp

lemma pjs_esc_t (r : List Char) :
    parseJsonStrChars ('\\' :: 't' :: r) =
      (parseJsonStrChars r).map (fun p => ('\t' :: p.1, p.2)) := by
  rw [parseJsonStrChars.eq_def]; simp

lemma pjs_esc_u (h1 h2 h3 h4 : Char) (a b c d : Nat) (r2 : List Char)
    (e1 : hexVal? h1 = some a) (e2 : hexVal? h2 = some b)
    (e3 : hexVal? h3 = some c) (e4 : hexVal? h4 = some d) :
    parseJsonStrChars ('\\' :: 'u' :: h1 :: h2 :: h3 :: h4 :: r2) =
      (parseJsonStrChars r2).map
        (fun p => (Char.ofNat (((a * 16 + b) * 16 + c) * 16 + d) :: p.1, p.2)) := by
  rw [parseJsonStrChars.eq_def]; simp [e1, e2, e3, e4]

lemma pjs_lit (c : Char) (hc1 : c ≠ '"') (hc2 : c ≠ '\\') (rest : List Char) :
    parseJsonStrChars (c :: rest) =
      (parseJsonStrChars rest).map (fun p => (c :: p.1, p.2)) := by
  rw [parseJsonStrChars.eq_def]; simp [hc1, hc2]

lemma parse_escJson (cs : List Char) (rest : List Char) :
    parseJsonStrChars (escJson cs ++ '"' :: rest) = some (cs, rest) := by
  induction cs with
  | nil => simp [escJson, pjs_quote]
  | cons c cs ih =>
    by_cases h1 : c = '"'
    · subst h1; simp [escJson, escapeJsonChar, pjs_esc_quote, ih]
    · by_cases h2 : c = '\\'
      · subst h2; simp [escJson, escapeJsonChar, pjs_esc_backslash, ih]
      · by_cases h3 : c = '\x08'
        · subst h3; simp [escJson, escapeJsonChar, pjs_esc_b, ih]
        · by_cases h4 : c = '\x0c'
          · subst h4; simp [escJson, escapeJsonChar, pjs_esc_f, ih]
          · by_cases h5 : c = '\n'
            · subst h5; simp [escJson, escapeJsonChar, pjs_esc_n, ih]
            · by_cases h6 : c = '\x0d'
              · subst h6; simp [escJson, escapeJsonChar, pjs_esc_r, ih]
              · by_cases h7 : c = '\t'
                · subst h7; simp [escJson, escapeJsonChar, pjs_esc_t, ih]
                · by_cases h8 : c.toNat < 32
                  · have hv1 : hexVal? (hexDigitChar (c.toNat / 16)) = some (c.toNat / 16) :=
                      hexVal_hexDigitChar _ (by omega)
                    have hv2 : hexVal? (hexDigitChar (c.toNat % 16)) = some (c.toNat % 16) :=
                      hexVal_hexDigitChar _ (Nat.mod_lt _ (by norm_num))
                    have hz : hexVal? '0' = some 0 := rfl
                    have harith : c.toNat / 16 * 16 + c.toNat % 16 = c.toNat := by
                      omega
                    simp only [escJson, escapeJsonChar, h1, h2, h3, h4, h5, h6, h7, h8,
                      if_false, if_true, List.cons_append, List.append_assoc, ite_true]
                    rw [pjs_esc_u '0' '0' _ _ 0 0 (c.toNat / 16) (c.toNat % 16) _ hz hz hv1 hv2]
                    simp [ih, harith, Char.ofNat_toNat]
                  · simp only [escJson, escapeJsonChar, h1, h2, h3, h4, h5, h6, h7, h8,
                      if_false, List.cons_append, List.append_assoc]
                    rw [pjs_lit c h1 h2]
                    simp [ih]

lemma parseEntry_render_ws (e : EvidenceEntry) (tail : List Char) :
    parseEntryChars ('\n' :: ' ' :: ' ' :: '{' :: (entryBodyChars e ++ tail)) =
      some (e, tail) := by
  simp [parseEntryChars, entryBodyChars, parseKV, expectTok, expectLit, skipWs,
    List.dropWhile, isJsonWs, kTimestamp, kCheck, kStatus, kDetails, ind4,
    parseStringToken, jsonStrLit, parse_escJson, mk_data]

lemma renderEntriesTail_length_ge (es : List EvidenceEntry) :
    es.length ≤ (renderEntriesTail es).length := by
  induction es with
  | nil => simp [renderEntriesTail]
  | cons e t ih => simp [renderEntriesTail]; omega

lemma parseEntriesTail_render (es : List EvidenceEntry) :
    ∀ fuel, es.length < fuel →
      parseEntriesTail fuel (renderEntriesTail es ++ '\n' :: ']' :: []) =
        some (es, []) := by
  induction es with
  | nil =>
    intro fuel h
    cases fuel with
    | zero => omega
    | succ f =>
      simp [parseEntriesTail, renderEntriesTail, skipWs, List.dropWhile, isJsonWs]
  | cons e t ih =>
    intro fuel h
    cases fuel with
    | zero => omega
    | succ f =>
      have iht := ih f (by simp at h; omega)
      simp only [renderEntriesTail, renderEntryChars, List.cons_append, List.append_assoc]
      simp [parseEntriesTail, skipWs, List.dropWhile, isJsonWs]
      rw [parseEntry_render_ws]
      simp [iht]

lemma exportJson_data (es : List EvidenceEntry) :
    (exportJson es).data = exportJsonChars es := rfl

lemma parseEvidenceJson_export (es : List EvidenceEntry) :
    parseEvidenceJson (exportJson es) = some es := by
  cases es with
  | nil => rfl
  | cons e t =>
    have hfuel : t.length < (exportJson (e :: t)).data.length + 1 := by
      have h1 := renderEntriesTail_length_ge t
      simp [exportJson_data, exportJsonChars, renderEntryChars]
      omega
    unfold parseEvidenceJson
    rw [exportJson_data]
    simp only [exportJsonChars, renderEntryChars, List.cons_append, List.append_assoc]
    simp [skipWs, List.dropWhile, isJsonWs]
    rw [parseEntry_render_ws]
    rw [exportJson_data] at hfuel
    simp only [exportJsonChars, renderEntryChars, List.cons_append] at hfuel
    simp only [Option.some_bind]
    rw [parseEntriesTail_render t _ (by simpa using hfuel)]
    simp [skipWs]

lemma pqc_dup (cs : List Char) (rest : List Char) (h : rest.head? ≠ some '"') :
    parseQuotedCsv (dupQuotes cs ++ '"' :: rest) = some (cs, rest) := by
  induction cs with
  | nil =>
    cases rest with
    | nil => rw [parseQuotedCsv.eq_def]; simp [dupQuotes]
    | cons c2 r2 =>
      have hc2 : c2 ≠ '"' := by simpa using h
      rw [parseQuotedCsv.eq_def]; simp [dupQuotes, hc2]
  | cons c cs ih =>
    by_cases hc : c = '"'
    · subst hc
      rw [show dupQuotes ('"' :: cs) = '"' :: '"' :: dupQuotes cs from by simp [dupQuotes]]
      rw [List.cons_append, List.cons_append, parseQuotedCsv.eq_def]
      simp [ih]
    · rw [show dupQuotes (c :: cs) = c :: dupQuotes cs from by simp [dupQuotes, hc]]
      rw [List.cons_append, parseQuotedCsv.eq_def]
      simp [hc, ih]

lemma parseCsvField_cell (s : String) (rest : List Char) (h : rest.head? ≠ some '"') :
    parseCsvField (csvCell s ++ rest) = some (s, rest) := by
  simp only [csvCell, List.cons_append, List.append_assoc, List.singleton_append]
  rw [parseCsvField.eq_def]
  simp [pqc_dup s.data rest h, mk_data]

lemma parseCsvRecord_step_cell (s : String) (f : Nat) (next : List Char) :
    parseCsvRecord (f + 1) (csvCell s ++ ',' :: next) =
      (parseCsvRecord f next).map (fun q => (s :: q.1, q.2)) := by
  simp only [parseCsvRecord]
  rw [show parseCsvField (csvCell s ++ ',' :: next) = some (s, ',' :: next) from
    parseCsvField_cell _ _ (by simp)]
  simp

lemma parseCsvRecord_last_cell (s : String) (f : Nat) (rest : List Char)
    (hrest : rest = [] ∨ ∃ r, rest = '\n' :: r) :
    parseCsvRecord (f + 1) (csvCell s ++ rest) = some ([s], rest) := by
  rcases hrest with rfl | ⟨r, rfl⟩
  · simp only [parseCsvRecord]
    rw [show parseCsvField (csvCell s ++ []) = some (s, []) from
      parseCsvField_cell _ _ (by simp)]
    simp
  · simp only [parseCsvRecord]
    rw [show parseCsvField (csvCell s ++ '\n' :: r) = some (s, '\n' :: r) from
      parseCsvField_cell _ _ (by simp)]
    simp

lemma parseCsvRecord_cells4 (a b c d : String) (f : Nat) (rest : List Char)
    (hrest : rest = [] ∨ ∃ r, rest = '\n' :: r) :
    parseCsvRecord (f + 1 + 1 + 1 + 1)
        (csvCell a ++ ',' :: (csvCell b ++ ',' :: (csvCell c ++ ',' :: (csvCell d ++ rest)))) =
      some ([a, b, c, d], rest) := by
  rw [parseCsvRecord_step_cell, parseCsvRecord_step_cell, parseCsvRecord_step_cell,
    parseCsvRecord_last_cell d _ _ hrest]
  rfl

lemma parseCsvRecord_header (f : Nat) (rest : List Char)
    (hrest : rest = [] ∨ ∃ r, rest = '\n' :: r) :
    parseCsvRecord (f + 1 + 1 + 1 + 1) (csvHeaderChars ++ rest) =
      some (["Timestamp", "Check", "Status", "Details"], rest) := by
  rcases hrest with rfl | ⟨r, rfl⟩ <;>
    simp [csvHeaderChars, parseCsvRecord, parseCsvField, List.takeWhile, List.drop]

lemma csvRowsChars_length_ge (es : List EvidenceEntry) :
    es.length ≤ (csvRowsChars es).length := by
  induction es with
  | nil => simp [csvRowsChars]
  | cons e t ih => simp [csvRowsChars]; omega

lemma parseCsvRecords_rows (es : List EvidenceEntry) :
    ∀ (F : Nat) (pre : List Char) (fields : List String),
      es.length + 4 ≤ F →
      (∀ f rest, 4 ≤ f → (rest = [] ∨ ∃ r, rest = '\n' :: r) →
        parseCsvRecord f (pre ++ rest) = some (fields, rest)) →
      parseCsvRecords F (pre ++ csvRowsChars es) =
        some (fields :: es.map (fun e => [e.timestamp, e.check, e.status, e.details])) := by
  induction es with
  | nil =>
    intro F pre fields hF hpre
    obtain ⟨F', rfl⟩ : ∃ k, F = k + 1 := ⟨F - 1, by omega⟩
    have h := hpre (F' + 1) [] (by omega) (Or.inl rfl)
    simp only [csvRowsChars]
    simp only [parseCsvRecords]
    rw [h]
    simp
  | cons e t ih =>
    intro F pre fields hF hpre
    obtain ⟨F', rfl⟩ : ∃ k, F = k + 1 := ⟨F - 1, by omega⟩
    have h := hpre (F' + 1) ('\n' :: (renderCsvRow e ++ csvRowsChars t)) (by omega)
      (Or.inr ⟨_, rfl⟩)
    simp only [csvRowsChars]
    simp only [parseCsvRecords]
    rw [h]
    simp only [Option.some_bind]
    have hrow : ∀ f rest, 4 ≤ f → (rest = [] ∨ ∃ r, rest = '\n' :: r) →
        parseCsvRecord f (renderCsvRow e ++ rest) =
          some ([e.timestamp, e.check, e.status, e.details], rest) := by
      intro f rest hf hr
      obtain ⟨k, rfl⟩ : ∃ k, f = k + 1 + 1 + 1 + 1 := ⟨f - 4, by omega⟩
      have hc := parseCsvRecord_cells4 e.timestamp e.check e.status e.details k rest hr
      simpa [renderCsvRow, List.append_assoc] using hc
    rw [ih F' (renderCsvRow e) _ (by simp at hF ⊢; omega) hrow]
    simp

lemma exportCsv_data (es : List EvidenceEntry) :
    (exportCsv es).data = csvHeaderChars ++ csvRowsChars es := rfl

lemma parseCsv_export (es : List EvidenceEntry) :
    parseCsv (exportCsv es) =
      some (["Timestamp", "Check", "Status", "Details"]
        :: es.map (fun e => [e.timestamp, e.check, e.status, e.details])) := by
  unfold parseCsv
  rw [exportCsv_data]
  refine parseCsvRecords_rows es _ csvHeaderChars _ ?_ ?_
  · have := csvRowsChars_length_ge es
    simp
    omega
  · intro f rest hf hr
    obtain ⟨k, rfl⟩ : ∃ k, f = k + 1 + 1 + 1 + 1 := ⟨f - 4, by omega⟩
    exact parseCsvRecord_header k rest hr

/-! ## Theorems for the claims -/

/-- C1: Run-controller fan-out isolation: whichever one of the three
evaluator promises rejects, the run still produces a `CheckResult` for
each check, the failing check's result has status `error`, and the
other two checks' results are exactly what their evaluators
returned. -/
theorem runChecks_isolation (e : RejectedError) (r r' : CheckResult) :
    ((runChecks (.error e) (.ok r) (.ok r')).mfa.status = Status.error ∧
     (runChecks (.error e) (.ok r) (.ok r')).rls = r ∧
     (runChecks (.error e) (.ok r) (.ok r')).pitr = r') ∧
    ((runChecks (.ok r) (.error e) (.ok r')).rls.status = Status.error ∧
     (runChecks (.ok r) (.error e) (.ok r')).mfa = r ∧
     (runChecks (.ok r) (.error e) (.ok r')).pitr = r') ∧
    ((runChecks (.ok r) (.ok r') (.error e)).pitr.status = Status.error ∧
     (runChecks (.ok r) (.ok r') (.error e)).mfa = r ∧
     (runChecks (.ok r) (.ok r') (.error e)).rls = r') :=
  ⟨⟨rfl, rfl, rfl⟩, ⟨rfl, rfl, rfl⟩, ⟨rfl, rfl, rfl⟩⟩

/-- C2: MFA aggregation: on a successfully listed user list, the
status is `pass` iff every user has at least one enrolled factor (with
the "all N" message); otherwise it is `fail` with the "k out of N"
message where k counts the users with at least one factor; the empty
list passes. -/
theorem checkMFA_aggregation (users : List AdminUser) :
    ((checkMFA (.ok users)).status = Status.pass ↔
      ∀ u ∈ users, mfaEnabled u = true) ∧
    (users.all mfaEnabled = true →
      (checkMFA (.ok users)).message =
        "MFA is enabled for all " ++ toString users.length ++ " users") ∧
    (users.all mfaEnabled = false →
      (checkMFA (.ok users)).status = Status.fail ∧
      (checkMFA (.ok users)).message =
        "MFA is enabled for " ++ toString (users.filter mfaEnabled).length
          ++ " out of " ++ toString users.length ++ " users") ∧
    (checkMFA (.ok ([] : List AdminUser))).status = Status.pass := by
  have hall := all_snd_map_mfa users
  have hcount := filter_snd_map_mfa users
  have hlen : (users.map (fun u => (u.email, mfaEnabled u))).length = users.length :=
    List.length_map _ _
  refine ⟨?_, ?_, ?_, rfl⟩
  · cases h : users.all mfaEnabled with
    | true =>
      simp only [checkMFA, hall, h, if_true]
      simpa using (List.all_eq_true.mp h)
    | false =>
      simp only [checkMFA, hall, h, if_false]
      constructor
      · intro hc; cases hc
      · intro hc
        have : users.all mfaEnabled = true := List.all_eq_true.mpr hc
        rw [h] at this; cases this
  · intro h
    simp only [checkMFA, hall, h, if_true, hlen]
  · intro h
    simp only [checkMFA, hall, h, if_false, hlen, hcount]
    exact ⟨rfl, rfl⟩

/-- C2 witness: with one of two users having an enrolled factor the
result is `fail` and the message reports "1 out of 2". -/
theorem checkMFA_aggregation_witness :
    (checkMFA (.ok [⟨some "a", some [⟨"f1"⟩]⟩, ⟨none, none⟩])).status = Status.fail ∧
    (checkMFA (.ok [⟨some "a", some [⟨"f1"⟩]⟩, ⟨none, none⟩])).message =
      "MFA is enabled for 1 out of 2 users" := by
  have h := (checkMFA_aggregation [⟨some "a", some [⟨"f1"⟩]⟩, ⟨none, none⟩]).2.2.1
    (by rfl)
  exact ⟨h.1, by rw [h.2]; rfl⟩

/-- C3: RLS cannot-determine policy: when the rpc outcome carries an
error or carries no data, `checkRLS` returns `pass` with empty details
and the fixed explanatory message — never `fail`, never `error`. -/
theorem checkRLS_cannot_determine (e : JsError) (d : Option (List TableEntry))
    (err : Option JsError) :
    checkRLS { data := d, error := some e } =
      { status := Status.pass
        message := "No public tables found or RLS configuration not needed yet."
        details := .arr [] } ∧
    checkRLS { data := none, error := err } =
      { status := Status.pass
        message := "No public tables found or RLS configuration not needed yet."
        details := .arr [] } := by
  constructor
  · cases d <;> rfl
  · cases err <;> rfl

/-- C6: RLS aggregation on data: on a non-empty table list with no rpc
error, the status is `pass` iff every entry has `rls_enabled`, else
`fail` with the "k out of N" message counting enabled tables, and
`details` is the full per-table list. -/
theorem checkRLS_aggregation (tables : List TableEntry) (_hne : tables ≠ []) :
    ((checkRLS { data := some tables, error := none }).status = Status.pass ↔
      ∀ t ∈ tables, t.rls_enabled = true) ∧
    (tables.all (fun t => t.rls_enabled) = false →
      (checkRLS { data := some tables, error := none }).status = Status.fail ∧
      (checkRLS { data := some tables, error := none }).message =
        "RLS is enabled on "
          ++ toString (tables.filter (fun t => t.rls_enabled)).length
          ++ " out of " ++ toString tables.length ++ " tables") ∧
    (tables.all (fun t => t.rls_enabled) = true →
      (checkRLS { data := some tables, error := none }).message =
        "RLS is enabled on all " ++ toString tables.length ++ " tables") ∧
    (checkRLS { data := some tables, error := none }).details =
      .arr (tables.map tableEntryJson) := by
  refine ⟨?_, ?_, ?_, ?_⟩
  · cases h : tables.all (fun t => t.rls_enabled) with
    | true =>
      simp only [checkRLS, h, if_true]
      simpa using (List.all_eq_true.mp h)
    | false =>
      simp only [checkRLS, h, if_false]
      constructor
      · intro hc; cases hc
      · intro hc
        have : tables.all (fun t => t.rls_enabled) = true := List.all_eq_true.mpr hc
        rw [h] at this; cases this
  · intro h; simp only [checkRLS, h, if_false]; exact ⟨rfl, rfl⟩
  · intro h; simp only [checkRLS, h, if_true]
  · cases h : tables.all (fun t => t.rls_enabled) <;> simp only [checkRLS, h]

/-- C6 witness: for the two-table list with one RLS-enabled table the
result is `fail` and the message reports "1 out of 2". -/
theorem checkRLS_aggregation_witness :
    (checkRLS { data := some [⟨"a", true, "public"⟩, ⟨"b", false, "public"⟩]
                error := none }).status = Status.fail ∧
    (checkRLS { data := some [⟨"a", true, "public"⟩, ⟨"b", false, "public"⟩]
                error := none }).message =
      "RLS is enabled on 1 out of 2 tables" := by
  have h := (checkRLS_aggregation
    [⟨"a", true, "public"⟩, ⟨"b", false, "public"⟩]
    (List.cons_ne_nil _ _)).2.1 (by rfl)
  exact ⟨h.1, by rw [h.2]; rfl⟩

/-- C4: PITR failed-subscription fallback: when the project reference
resolves and the subscription call rejects, the result is exactly the
fixed free-tier `fail` result (not `error`), and the only endpoint
invoked is the subscription endpoint (the backups-info call is never
attempted). -/
theorem checkPITR_failed_subscription (creds : SupabaseCredentials) (ref : String)
    (h : extractProjectRef creds.url = some ref) (e : JsError)
    (b : Except JsError JSONValue) :
    checkPITR creds { subscriptionResp := .error e, backupResp := b } =
      (freeTierResult, ["projects/" ++ ref ++ "/subscription"]) ∧
    freeTierResult.status = Status.fail := by
  refine ⟨?_, rfl⟩
  simp only [checkPITR, h]

/-- C4 witness. -/
theorem checkPITR_failed_subscription_witness :
    checkPITR { url := "https://abc.supabase.co", serviceRoleKey := "k"
                managementApiKey := "m", projectRef := none }
        { subscriptionResp := .error ⟨"HTTP 404", "Error", none⟩
          backupResp := .ok .null } =
      (freeTierResult, ["projects/" ++ "abc" ++ "/subscription"]) ∧
    freeTierResult.status = Status.fail :=
  checkPITR_failed_subscription
    { url := "https://abc.supabase.co", serviceRoleKey := "k"
      managementApiKey := "m", projectRef := none } "abc" rfl
    ⟨"HTTP 404", "Error", none⟩ (.ok .null)

/-- C5: PITR free-tier short-circuit: when the subscription response
has a string `tier` field matching "free" case-insensitively, the
result is the fixed free-tier `fail` result and exactly one endpoint
(the subscription endpoint) was invoked. -/
theorem checkPITR_free_tier (creds : SupabaseCredentials) (ref : String)
    (h : extractProjectRef creds.url = some ref) (sub : JSONValue) (tier : String)
    (ht : getField sub "tier" = some (.str tier)) (hfree : jsToLower tier = "free")
    (b : Except JsError JSONValue) :
    checkPITR creds { subscriptionResp := .ok sub, backupResp := b } =
      (freeTierResult, ["projects/" ++ ref ++ "/subscription"]) ∧
    (checkPITR creds { subscriptionResp := .ok sub, backupResp := b }).2.length = 1 := by
  have hmain :
      checkPITR creds { subscriptionResp := .ok sub, backupResp := b } =
        (freeTierResult, ["projects/" ++ ref ++ "/subscription"]) := by
    simp only [checkPITR, h, ht, hfree]
    rfl
  exact ⟨hmain, by rw [hmain]; rfl⟩

/-- C5 witness: tier "Free" short-circuits after one call. -/
theorem checkPITR_free_tier_witness :
    checkPITR { url := "https://abc.supabase.co", serviceRoleKey := "k"
                managementApiKey := "m", projectRef := none }
        { subscriptionResp := .ok (.obj [("tier", .str "Free")])
          backupResp := .ok .null } =
      (freeTierResult, ["projects/" ++ "abc" ++ "/subscription"]) ∧
    (checkPITR { url := "https://abc.supabase.co", serviceRoleKey := "k"
                 managementApiKey := "m", projectRef := none }
        { subscriptionResp := .ok (.obj [("tier", .str "Free")])
          backupResp := .ok .null }).2.length = 1 :=
  checkPITR_free_tier
    { url := "https://abc.supabase.co", serviceRoleKey := "k"
      managementApiKey := "m", projectRef := none } "abc" rfl
    (.obj [("tier", .str "Free")]) "Free" rfl (by decide) (.ok .null)

/-- C7: PITR precondition check: when no project reference can be
extracted from the url, the result has status `error` with the
malformed-input message and no endpoint is invoked. -/
theorem checkPITR_invalid_url (creds : SupabaseCredentials) (env : PitrEnv)
    (h : extractProjectRef creds.url = none) :
    checkPITR creds env =
      ({ status := Status.error
         message := "Invalid Supabase URL. Unable to extract project reference."
         details := .obj [("url", .str creds.url)] }, []) := by
  simp only [checkPITR, h]

/-- C7 witness. -/
theorem checkPITR_invalid_url_witness :
    checkPITR { url := "not-a-url", serviceRoleKey := "k"
                managementApiKey := "m", projectRef := none }
        { subscriptionResp := .ok .null, backupResp := .ok .null } =
      ({ status := Status.error
         message := "Invalid Supabase URL. Unable to extract project reference."
         details := .obj [("url", .str "not-a-url")] }, []) :=
  checkPITR_invalid_url
    { url := "not-a-url", serviceRoleKey := "k"
      managementApiKey := "m", projectRef := none }
    { subscriptionResp := .ok .null, backupResp := .ok .null } rfl

/-- C10: when the subscription response resolves but its `tier` field
is absent or not a string, the `toLowerCase` access throws inside
`checkPITR`, the outermost handler catches it, and the result is the
generic `error` result (never `fail`, never a propagated
exception). -/
theorem checkPITR_bad_tier_shape (creds : SupabaseCredentials) (ref : String)
    (h : extractProjectRef creds.url = some ref) (sub : JSONValue)
    (hshape : ∀ s, getField sub "tier" ≠ some (JSONValue.str s))
    (b : Except JsError JSONValue) :
    (checkPITR creds { subscriptionResp := .ok sub, backupResp := b }).1.status
      = Status.error ∧
    (checkPITR creds { subscriptionResp := .ok sub, backupResp := b }).1.message
      = "Failed to check PITR status. Please verify your credentials and try again." := by
  simp only [checkPITR, h]
  rcases hg : getField sub "tier" with _ | v
  · simp [hg]
  · cases v with
    | str s => exact absurd hg (hshape s)
    | _ => simp [hg]

/-- C10 witness: a numeric `tier` field yields the generic error
result. -/
theorem checkPITR_bad_tier_shape_witness :
    (checkPITR { url := "https://abc.supabase.co", serviceRoleKey := "k"
                 managementApiKey := "m", projectRef := none }
        { subscriptionResp := .ok (.obj [("tier", .num 5)])
          backupResp := .ok .null }).1.status = Status.error ∧
    (checkPITR { url := "https://abc.supabase.co", serviceRoleKey := "k"
                 managementApiKey := "m", projectRef := none }
        { subscriptionResp := .ok (.obj [("tier", .num 5)])
          backupResp := .ok .null }).1.message =
      "Failed to check PITR status. Please verify your credentials and try again." :=
  checkPITR_bad_tier_shape
    { url := "https://abc.supabase.co", serviceRoleKey := "k"
      managementApiKey := "m", projectRef := none } "abc" rfl
    (.obj [("tier", .num 5)]) (by intro s hs; injection hs with h2; cases h2) (.ok .null)

/-- C8: Evidence-log append invariant: a completed run appends exactly
three entries at the end of the log, in the fixed order MFA, RLS,
PITR, all carrying the one shared timestamp, and every entry already
in the log is preserved unchanged at its position. -/
theorem appendEvidence_invariant (prev : List EvidenceEntry) (ts : String)
    (r : Results) :
    (appendEvidence prev ts r).length = prev.length + 3 ∧
    (appendEvidence prev ts r).take prev.length = prev ∧
    ((appendEvidence prev ts r).drop prev.length).map EvidenceEntry.timestamp
      = [ts, ts, ts] ∧
    ((appendEvidence prev ts r).drop prev.length).map EvidenceEntry.check
      = ["MFA", "RLS", "PITR"] ∧
    ((appendEvidence prev ts r).drop prev.length).map EvidenceEntry.status
      = [statusText r.mfa.status, statusText r.rls.status, statusText r.pitr.status] ∧
    ((appendEvidence prev ts r).drop prev.length).map EvidenceEntry.details
      = [r.mfa.message, r.rls.message, r.pitr.message] := by
  have hd : (appendEvidence prev ts r).drop prev.length = evidenceOfRun ts r :=
    List.drop_left _ _
  refine ⟨by simp [appendEvidence, evidenceOfRun], List.take_left _ _, ?_, ?_, ?_, ?_⟩
    <;> rw [hd] <;> rfl

/-- C9: Export round-trip: parsing the JSON export
(`JSON.stringify(evidence, null, 2)`) yields the same entries
field-for-field, and parsing the CSV export with an RFC-4180 reader
yields the header row `Timestamp,Check,Status,Details` followed by
every entry's four fields exactly — so any field, in particular one
containing a comma or a double quote, is recoverable (quotes are
doubled and every field is quoted). -/
theorem export_roundtrip (es : List EvidenceEntry) :
    parseEvidenceJson (exportJson es) = some es ∧
    parseCsv (exportCsv es) =
      some (["Timestamp", "Check", "Status", "Details"]
        :: es.map (fun e => [e.timestamp, e.check, e.status, e.details])) :=
  ⟨parseEvidenceJson_export es, parseCsv_export es⟩

end SupabaseCompliance
